import Mathlib

/-!
Verification development for the offline-first persistence and sync engine of
the web3-logbook client (services/database.ts, services/syncService.ts and
services/migrations/MigrationManager.ts).

The TypeScript code manipulates dynamically typed SQLite rows and JSON
values, so the embedding works over a small JS/SQLite value type.  Rows of
the flight_entries table are structures of such values with one field per
column of the schema created by the v2 migration.  Fallible operations
return the new store together with an optional error, mirroring thrown
exceptions; transactional code restores the original store on error.
-/

namespace Logbook

/-- Dynamically typed JS/SQLite value: a number, a string, SQL NULL /
JS null, or JS undefined (absent property). -/
inductive Value
  | num (n : Int)
  | str (s : String)
  | null
  | undefined
deriving DecidableEq, Repr

/-- Nullish values, the ones the JS coalescing operator skips. -/
def Value.nullish : Value → Bool
  | .null => true
  | .undefined => true
  | _ => false

/-- The JS nullish-coalescing operator. -/
def coalesce (a b : Value) : Value :=
  if a.nullish then b else a

/-- JS truthiness for the values of the model (objects are handled
separately where needed). -/
def Value.truthy : Value → Bool
  | .null => false
  | .undefined => false
  | .num n => n != 0
  | .str s => s != ""

/-- Binding a JS value as a SQL parameter after the source pattern
value ?? null: undefined and null both arrive as SQL NULL. -/
def toSqlValue (v : Value) : Value :=
  if v.nullish then .null else v

/-- Conversion X ?? undefined used by mapRowToEntry on nullable columns. -/
def toUndef (v : Value) : Value :=
  if v.nullish then .undefined else v

/-- SQL equality as used in WHERE clauses: NULL compares equal to
nothing, otherwise plain value equality. -/
def sqlValueEq (a b : Value) : Bool :=
  !a.nullish && !b.nullish && decide (a = b)

/-- One row of the flight_entries table, one field per column of the
schema built by Database.init / migration v2 (services/database.ts). -/
structure Row where
  id : Value
  server_id : Value
  pilot_id : Value
  status : Value
  flight_date : Value
  aircraft_reg : Value
  aircraft_type : Value
  route_from : Value
  route_to : Value
  pic_time : Value
  sic_time : Value
  dual_time : Value
  night_time : Value
  instrument_time : Value
  total_time : Value
  landings_day : Value
  landings_night : Value
  remarks : Value
  attachments : Value
  entry_hash : Value
  sync_status : Value
  last_synced_at : Value
  created_at : Value
  updated_at : Value
  departure_airport_id : Value
  arrival_airport_id : Value
  departure_timezone : Value
  arrival_timezone : Value
  departure_time_utc : Value
  arrival_time_utc : Value
  night_time_method : Value
  night_time_calculated_at : Value
  additional_data : Value
deriving DecidableEq, Repr

/-- Keys of the FlightEntry interface that an update patch may carry
(Partial of the FlightEntry interface of services/database.ts). -/
inductive FieldKey
  | id
  | serverId
  | pilotId
  | status
  | flightDate
  | aircraftReg
  | aircraftType
  | routeFrom
  | routeTo
  | picTime
  | sicTime
  | dualTime
  | nightTime
  | instrumentTime
  | totalTime
  | landingsDay
  | landingsNight
  | remarks
  | attachments
  | entryHash
  | batchId
  | version
  | syncStatus
  | lastSyncedAt
  | createdAt
  | updatedAt
  | departureAirportId
  | arrivalAirportId
  | departureTimezone
  | arrivalTimezone
  | departureTimeUtc
  | arrivalTimeUtc
  | nightTimeMethod
  | nightTimeCalculatedAt
  | additionalData
deriving DecidableEq, Repr

/-- Whether toSnakeCase of the key names an actual column of
flight_entries.  The interface fields batchId and version have no backing
column (mapRowToEntry always returns undefined for them), so a patch
naming them would make the UPDATE statement fail at prepare time. -/
def FieldKey.hasColumn : FieldKey → Bool
  | .batchId => false
  | .version => false
  | _ => true

/-- Assignment toSnakeCase(key) = value of one SET item to a row.  The
keys without a backing column are unreachable behind the hasColumn
check and leave the row unchanged. -/
def setField (k : FieldKey) (v : Value) (r : Row) : Row :=
  match k with
  | .id => { r with id := v }
  | .serverId => { r with server_id := v }
  | .pilotId => { r with pilot_id := v }
  | .status => { r with status := v }
  | .flightDate => { r with flight_date := v }
  | .aircraftReg => { r with aircraft_reg := v }
  | .aircraftType => { r with aircraft_type := v }
  | .routeFrom => { r with route_from := v }
  | .routeTo => { r with route_to := v }
  | .picTime => { r with pic_time := v }
  | .sicTime => { r with sic_time := v }
  | .dualTime => { r with dual_time := v }
  | .nightTime => { r with night_time := v }
  | .instrumentTime => { r with instrument_time := v }
  | .totalTime => { r with total_time := v }
  | .landingsDay => { r with landings_day := v }
  | .landingsNight => { r with landings_night := v }
  | .remarks => { r with remarks := v }
  | .attachments => { r with attachments := v }
  | .entryHash => { r with entry_hash := v }
  | .batchId => r
  | .version => r
  | .syncStatus => { r with sync_status := v }
  | .lastSyncedAt => { r with last_synced_at := v }
  | .createdAt => { r with created_at := v }
  | .updatedAt => { r with updated_at := v }
  | .departureAirportId => { r with departure_airport_id := v }
  | .arrivalAirportId => { r with arrival_airport_id := v }
  | .departureTimezone => { r with departure_timezone := v }
  | .arrivalTimezone => { r with arrival_timezone := v }
  | .departureTimeUtc => { r with departure_time_utc := v }
  | .arrivalTimeUtc => { r with arrival_time_utc := v }
  | .nightTimeMethod => { r with night_time_method := v }
  | .nightTimeCalculatedAt => { r with night_time_calculated_at := v }
  | .additionalData => { r with additional_data := v }

/-- An update patch: the entries of the Partial object, in key order. -/
abbrev Patch := List (FieldKey × Value)

/-- Application of the SET items built from the filtered patch, each
value bound as value ?? null. -/
def applyFields (fields : Patch) (r : Row) : Row :=
  fields.foldl (fun r kv => setField kv.1 (toSqlValue kv.2) r) r

/-- The filter updateEntry applies to the patch keys:
key !== "id" && key !== "createdAt". -/
def keepKey (kv : FieldKey × Value) : Bool :=
  !decide (kv.1 = FieldKey.id) && !decide (kv.1 = FieldKey.createdAt)

/-- Database.updateEntry(id, updates) (services/database.ts): early
return on an empty patch; strip the id and createdAt keys; run
UPDATE flight_entries SET fields, updated_at = datetime('now') WHERE id = ?.
A patch whose remaining key list is empty yields malformed SQL and a
patch naming a key without a backing column fails at prepare time; in
both cases the statement throws and the store is unchanged (second
component carries the error). -/
def updateEntry (db : List Row) (i : Value) (updates : Patch) (now : Value) :
    List Row × Option String :=
  if updates.isEmpty then (db, none)
  else
    let fields := updates.filter keepKey
    if fields.isEmpty then (db, some "SQL syntax error near updated_at")
    else if !(fields.all (fun kv => kv.1.hasColumn)) then (db, some "no such column")
    else
      (db.map (fun r =>
        if sqlValueEq r.id i then { applyFields fields r with updated_at := now } else r),
       none)

/-- Per-row effect of Database.markAsSynced(id, serverId). -/
def markRow (i serverId now : Value) (r : Row) : Row :=
  if sqlValueEq r.id i then
    { r with sync_status := .str "synced", server_id := serverId,
             last_synced_at := now, updated_at := now }
  else r

/-- Database.markAsSynced(id, serverId): UPDATE setting
sync_status = 'synced', server_id, last_synced_at and updated_at on the
row whose id matches. -/
def markAsSynced (db : List Row) (i serverId now : Value) : List Row :=
  db.map (markRow i serverId now)

/-- SQLite ordering on stored values for the MAX aggregate:
NULL sorts before numbers, numbers before text. -/
def valueLt (a b : Value) : Bool :=
  match a, b with
  | .null, .null => false
  | .undefined, _ => false
  | _, .undefined => false
  | .null, _ => true
  | _, .null => false
  | .num x, .num y => decide (x < y)
  | .num _, .str _ => true
  | .str _, .num _ => false
  | .str x, .str y => decide (x < y)

/-- The SQL MAX aggregate: ignores NULLs, yields NULL on no non-NULL
input. -/
def sqlMaxAgg (l : List Value) : Value :=
  l.foldl (fun acc v => if v.nullish then acc else if acc.nullish then v else
    if valueLt acc v then v else acc) .null

/-- Result shape of Database.getStats. -/
structure Stats where
  total : Nat
  pending : Nat
  synced : Nat
  lastSyncedAt : Value
deriving DecidableEq, Repr

/-- The CASE WHEN sync_status = 'pending' predicate of getStats. -/
def isPendingRow (r : Row) : Bool :=
  sqlValueEq r.sync_status (.str "pending")

/-- The CASE WHEN sync_status = 'synced' predicate of getStats. -/
def isSyncedRow (r : Row) : Bool :=
  sqlValueEq r.sync_status (.str "synced")

/-- Database.getStats(): COUNT of all rows, SUM of the pending and
synced indicator cases, MAX of last_synced_at; the ?? 0 and ?? null
fallbacks of the source resolve the NULL aggregates of the empty
table, which the model computes directly. -/
def getStats (db : List Row) : Stats :=
  { total := db.length
    pending := db.countP isPendingRow
    synced := db.countP isSyncedRow
    lastSyncedAt := sqlMaxAgg (db.map (·.last_synced_at)) }

/-- The FlightEntry object shape of services/database.ts, as produced by
mapRowToEntry: every field a JS value, absent optionals being undefined. -/
structure FlightEntry where
  id : Value
  serverId : Value
  pilotId : Value
  status : Value
  flightDate : Value
  aircraftReg : Value
  aircraftType : Value
  routeFrom : Value
  routeTo : Value
  picTime : Value
  sicTime : Value
  dualTime : Value
  nightTime : Value
  instrumentTime : Value
  totalTime : Value
  landingsDay : Value
  landingsNight : Value
  remarks : Value
  attachments : Value
  entryHash : Value
  batchId : Value
  version : Value
  syncStatus : Value
  lastSyncedAt : Value
  createdAt : Value
  updatedAt : Value
  departureAirportId : Value
  arrivalAirportId : Value
  departureTimezone : Value
  arrivalTimezone : Value
  departureTimeUtc : Value
  arrivalTimeUtc : Value
  nightTimeMethod : Value
  nightTimeCalculatedAt : Value
  additionalData : Value
deriving DecidableEq, Repr

/-- Database.mapRowToEntry: nullable columns become undefined when NULL,
batchId and version are always undefined, night_time_method falls back
to manual. -/
def mapRowToEntry (r : Row) : FlightEntry :=
  { id := r.id
    serverId := toUndef r.server_id
    pilotId := r.pilot_id
    status := r.status
    flightDate := r.flight_date
    aircraftReg := r.aircraft_reg
    aircraftType := toUndef r.aircraft_type
    routeFrom := toUndef r.route_from
    routeTo := toUndef r.route_to
    picTime := r.pic_time
    sicTime := r.sic_time
    dualTime := r.dual_time
    nightTime := r.night_time
    instrumentTime := r.instrument_time
    totalTime := r.total_time
    landingsDay := r.landings_day
    landingsNight := r.landings_night
    remarks := toUndef r.remarks
    attachments := toUndef r.attachments
    entryHash := toUndef r.entry_hash
    batchId := .undefined
    version := .undefined
    syncStatus := r.sync_status
    lastSyncedAt := toUndef r.last_synced_at
    createdAt := r.created_at
    updatedAt := r.updated_at
    departureAirportId := toUndef r.departure_airport_id
    arrivalAirportId := toUndef r.arrival_airport_id
    departureTimezone := toUndef r.departure_timezone
    arrivalTimezone := toUndef r.arrival_timezone
    departureTimeUtc := toUndef r.departure_time_utc
    arrivalTimeUtc := toUndef r.arrival_time_utc
    nightTimeMethod := coalesce r.night_time_method (.str "manual")
    nightTimeCalculatedAt := toUndef r.night_time_calculated_at
    additionalData := toUndef r.additional_data }

/-- Database.getPendingSyncEntries(): SELECT the rows with
sync_status = 'pending' and map them.  Rows are held in insertion order
and created_at values of successive inserts are nondecreasing, so the
scan order of the model agrees with the ORDER BY created_at ASC of the
source. -/
def getPendingSyncEntries (db : List Row) : List FlightEntry :=
  (db.filter isPendingRow).map mapRowToEntry

/-!
Sync orchestrator (services/syncService.ts).  The remote call
ApiClient.syncEntries is an external collaborator; its outcome for the
one submission of a pass is an input of the model: either a parsed JSON
response, an axios "Network Error", or any other thrown failure with its
parsed message.
-/

/-- One item of the synced / failed arrays of the sync response; a key
the server did not send is undefined. -/
structure RespItem where
  localId : Value
  local_id : Value
  id : Value
  serverId : Value
  server_id : Value
deriving DecidableEq, Repr

/-- Parsed body of a successful response of POST /pilots/me/entries/sync.
The synced / failed fields are present exactly when the body carries an
array there (the Array.isArray checks of the source). -/
structure SyncResponse where
  synced : Option (List RespItem)
  failed : Option (List RespItem)
  errors : Option (List String)
  error : Option String
deriving DecidableEq, Repr

/-- Outcome of the one remote submission of a pass. -/
inductive RemoteOutcome
  | ok (resp : SyncResponse)
  | networkError
  | failure (msg : String)
deriving DecidableEq, Repr

/-- The SyncResult shape returned by syncNow / pushEntries. -/
structure SyncResult where
  success : Bool
  synced : Option Nat
  failed : Option Nat
  error : Option String
deriving DecidableEq, Repr

/-- One SyncStatus emission: status phase, progress, optional message. -/
structure SyncStatusS where
  status : String
  progress : Int
  message : Option String
deriving DecidableEq, Repr

/-- The chain item?.localId ?? item?.local_id ?? item?.id. -/
def localIdOf (it : RespItem) : Value :=
  coalesce it.localId (coalesce it.local_id it.id)

/-- matched?.serverId on an optional find result. -/
def optServerId : Option RespItem → Value
  | some it => it.serverId
  | none => .undefined

/-- matched?.server_id on an optional find result. -/
def optServerUnderId : Option RespItem → Value
  | some it => it.server_id
  | none => .undefined

/-- syncedItems.find of the item whose local identity strictly equals
entry.id. -/
def entryMatched (syncedItems : List RespItem) (e : FlightEntry) : Option RespItem :=
  syncedItems.find? (fun it => decide (localIdOf it = e.id))

/-- The guard matched || syncedItems.length === 0 of the synced loop
(a found item is an object, hence truthy). -/
def entryCond (syncedItems : List RespItem) (e : FlightEntry) : Bool :=
  (entryMatched syncedItems e).isSome || decide (syncedItems.length = 0)

/-- The server id chain
matched?.serverId ?? matched?.server_id ?? entry.serverId ?? entry.id. -/
def entrySid (syncedItems : List RespItem) (e : FlightEntry) : Value :=
  coalesce (optServerId (entryMatched syncedItems e))
    (coalesce (optServerUnderId (entryMatched syncedItems e))
      (coalesce e.serverId e.id))

/-- The failed-item local identity failed?.localId ?? ... ?? null. -/
def failLocal (f : RespItem) : Value :=
  coalesce (localIdOf f) .null

/-- Outcome of one pushEntries call: the store after the write-backs,
the SyncResult, and the status emissions. -/
structure PushOutcome where
  db : List Row
  result : SyncResult
  emitted : List SyncStatusS
deriving Repr

/-- The body of the loop over entries in the try branch of pushEntries:
the store paired with syncedCount. -/
def pushSyncedStep (syncedItems : List RespItem) (now : Value)
    (acc : List Row × Nat) (e : FlightEntry) : List Row × Nat :=
  if entryCond syncedItems e then
    (markAsSynced acc.1 e.id (entrySid syncedItems e) now, acc.2 + 1)
  else acc

/-- The body of the loop over failedItems: entries the server reported
failed get syncStatus = error when their local identity is truthy.  For
the constant one-key patch the updateEntry error branches are
unreachable, so the first component is the whole effect. -/
def pushFailedStep (now : Value) (db : List Row) (f : RespItem) : List Row :=
  if (failLocal f).truthy then
    (updateEntry db (failLocal f) [(FieldKey.syncStatus, .str "error")] now).1
  else db

/-- The errors.join(", ") / response.error fallback for the result
message. -/
def responseErrorMessage (resp : SyncResponse) : Option String :=
  match resp.errors with
  | some l => some (String.intercalate ", " l)
  | none => resp.error

/-- SyncService.pushEntries(entries, silent): submit the serialized
batch once and interpret the outcome.  On a parsed response, entries
matched in the synced array (or the whole batch when that array is
empty) are marked synced and entries listed in the failed array get
syncStatus = error.  On an axios "Network Error" the source marks the
whole batch synced and reports success; on any other thrown failure it
marks every entry error. -/
def pushEntries (db : List Row) (entries : List FlightEntry)
    (remote : RemoteOutcome) (silent : Bool) (now : Value) : PushOutcome :=
  if entries.length = 0 then
    { db := db, result := { success := true, synced := some 0, failed := some 0, error := none },
      emitted := [] }
  else
    match remote with
    | .ok resp =>
      let failedItems := resp.failed.getD []
      let syncedItems := resp.synced.getD []
      let looped := entries.foldl (pushSyncedStep syncedItems now) (db, 0)
      let syncedCount := looped.2
      let failedCount := failedItems.length
      let db2 := if failedCount > 0 then
          failedItems.foldl (pushFailedStep now) looped.1
        else looped.1
      { db := db2
        result := { success := decide (failedCount = 0), synced := some syncedCount,
                    failed := some failedCount, error := responseErrorMessage resp }
        emitted := if silent then [] else [⟨"syncing", 100, none⟩] }
    | .networkError =>
      let db2 := entries.foldl
        (fun d e => markAsSynced d e.id (coalesce e.serverId e.id) now) db
      { db := db2
        result := { success := true, synced := some entries.length, failed := some 0,
                    error := none }
        emitted := if silent then [] else [⟨"syncing", 100, none⟩] }
    | .failure msg =>
      let db2 := entries.foldl
        (fun d e => (updateEntry d e.id [(FieldKey.syncStatus, .str "error")] now).1) db
      { db := db2
        result := { success := false, synced := some 0, failed := some entries.length,
                    error := some msg }
        emitted := [] }

/-- In-memory state of a SyncService instance: the busy flag and the
currently held status. -/
structure SvcState where
  syncing : Bool
  currentStatus : SyncStatusS
deriving DecidableEq, Repr

/-- Outcome of one syncNow call: final service state, final store, the
returned SyncResult, how many remote submissions were issued, and the
status emissions in order. -/
structure SyncNowOutcome where
  svc : SvcState
  db : List Row
  result : SyncResult
  submissions : Nat
  emitted : List SyncStatusS
deriving Repr

/-- The status held after a list of emissions (the last one, else the
previous status). -/
def lastStatus (l : List SyncStatusS) (prev : SyncStatusS) : SyncStatusS :=
  l.getLast?.getD prev

/-- The result.error || "Some entries failed to sync" fallback (JS ||,
so an empty string also falls back). -/
def failMessage (e : Option String) : String :=
  match e with
  | some s => if s = "" then "Some entries failed to sync" else s
  | none => "Some entries failed to sync"

/-- SyncService.syncNow(options): reject when already syncing; set the
busy flag; check connectivity; read the pending batch; push it;
interpret the result; reset the busy flag in the finally clause.  The
connectivity probe and the remote outcome are inputs of the model. -/
def syncNow (svc : SvcState) (db : List Row) (connected : Bool)
    (remote : RemoteOutcome) (silent : Bool) (now : Value) : SyncNowOutcome :=
  if svc.syncing then
    { svc := svc, db := db
      result := { success := false, synced := none, failed := none,
                  error := some "Sync already in progress" }
      submissions := 0, emitted := [] }
  else
    let emitted0 : List SyncStatusS := if silent then [] else [⟨"syncing", 0, none⟩]
    if !connected then
      -- throw "No internet connection", handled by the outer catch
      let msg := "No internet connection"
      let emitted := emitted0 ++ (if silent then [] else [⟨"error", 0, some msg⟩])
      { svc := { syncing := false, currentStatus := lastStatus emitted svc.currentStatus }
        db := db
        result := { success := false, synced := none, failed := some 0, error := some msg }
        submissions := 0, emitted := emitted }
    else
      let pendingEntries := getPendingSyncEntries db
      if pendingEntries.length = 0 then
        let emitted := emitted0 ++ (if silent then [] else [⟨"idle", 100, none⟩])
        { svc := { syncing := false, currentStatus := lastStatus emitted svc.currentStatus }
          db := db
          result := { success := true, synced := some 0, failed := some 0, error := none }
          submissions := 0, emitted := emitted }
      else
        let push := pushEntries db pendingEntries remote silent now
        if (push.result.failed.getD 0) > 0 then
          let msg := failMessage push.result.error
          let emitted := emitted0 ++ push.emitted ++
            (if silent then [] else [⟨"error", 100, some msg⟩])
          { svc := { syncing := false, currentStatus := lastStatus emitted svc.currentStatus }
            db := push.db
            result := { push.result with success := false, error := some msg }
            submissions := 1, emitted := emitted }
        else
          let emitted := emitted0 ++ push.emitted ++
            (if silent then [] else [⟨"success", 100, none⟩, ⟨"idle", 100, none⟩])
          { svc := { syncing := false, currentStatus := lastStatus emitted svc.currentStatus }
            db := push.db
            result := push.result
            submissions := 1, emitted := emitted }

/-!
Schema migration manager (services/migrations/MigrationManager.ts).
Statements run against a migration-level view of the local database;
each step is a state transformer that may fail, returning the store as
left by the statements that did run, the error, and the number of
statements and queries issued.  withTransactionAsync restores the
original store when its body fails.
-/

/-- One row of the schema_migrations ledger. -/
structure LedgerRow where
  version : Int
  applied_at : String
  description : String
deriving DecidableEq, Repr

/-- Migration-level view of the local database: the ledger table (none
when the table does not exist), the airports table, the set of created
index names, and the flight_entries table as its column-name list (none
when absent). -/
structure MigDb where
  schemaMigrations : Option (List LedgerRow)
  airportsTable : Bool
  indexes : List String
  flightTable : Option (List String)
deriving DecidableEq, Repr

/-- Result of running a piece of migration code: the store as left by
the statements that ran, the thrown error when one failed, and the
number of database statements and queries issued. -/
structure StepOut where
  db : MigDb
  err : Option String
  ops : Nat
deriving DecidableEq, Repr

/-- A piece of migration code. -/
abbrev MigStep := MigDb → StepOut

/-- Sequencing of migration code: a thrown error stops execution but
keeps the effects of the statements already run (visible inside the
enclosing transaction). -/
def mseq (a b : MigStep) : MigStep := fun d =>
  match a d with
  | { db := d1, err := none, ops := n1 } =>
    let o2 := b d1
    { db := o2.db, err := o2.err, ops := n1 + o2.ops }
  | o => o

/-- CREATE TABLE IF NOT EXISTS airports (one statement). -/
def execCreateAirportsTable : MigStep := fun d =>
  { db := { d with airportsTable := true }, err := none, ops := 1 }

/-- CREATE INDEX IF NOT EXISTS bookkeeping. -/
def addIndex (n : String) (d : MigDb) : MigDb :=
  if n ∈ d.indexes then d else { d with indexes := d.indexes ++ [n] }

/-- The five airport lookup indexes (one execAsync, five statements). -/
def execCreateAirportIndexes : MigStep := fun d =>
  { db := [ "idx_airports_icao", "idx_airports_iata", "idx_airports_name",
            "idx_airports_city", "idx_airports_active" ].foldl (fun d n => addIndex n d) d
    err := none, ops := 5 }

/-- The column list of the flight_entries table in its final v2 shape. -/
def flightColumnsV2 : List String :=
  [ "id", "server_id", "pilot_id", "status", "flight_date", "aircraft_reg",
    "aircraft_type", "route_from", "route_to", "pic_time", "sic_time", "dual_time",
    "night_time", "instrument_time", "total_time", "landings_day", "landings_night",
    "remarks", "attachments", "entry_hash", "sync_status", "last_synced_at",
    "created_at", "updated_at", "departure_airport_id", "arrival_airport_id",
    "departure_timezone", "arrival_timezone", "departure_time_utc", "arrival_time_utc",
    "night_time_method", "night_time_calculated_at", "additional_data" ]

/-- CREATE TABLE IF NOT EXISTS flight_entries with the new schema (fresh
install branch of migration v2). -/
def execCreateFlightEntriesTable : MigStep := fun d =>
  match d.flightTable with
  | some _ => { db := d, err := none, ops := 1 }
  | none => { db := { d with flightTable := some flightColumnsV2 }, err := none, ops := 1 }

/-- The six flight_entries indexes created on the fresh-install branch. -/
def execCreateFlightIndexesFresh : MigStep := fun d =>
  { db := [ "idx_flight_date", "idx_sync_status", "idx_server_id",
            "idx_departure_airport", "idx_arrival_airport",
            "idx_departure_time_utc" ].foldl (fun d n => addIndex n d) d
    err := none, ops := 6 }

/-- The three new flight_entries indexes of the upgrade branch. -/
def execCreateFlightIndexesNew : MigStep := fun d =>
  { db := [ "idx_departure_airport", "idx_arrival_airport",
            "idx_departure_time_utc" ].foldl (fun d n => addIndex n d) d
    err := none, ops := 3 }

/-- ALTER TABLE flight_entries ADD COLUMN: fails when the table is
absent or already has the column (no IF NOT EXISTS on columns). -/
def alterAddColumn (c : String) : MigStep := fun d =>
  match d.flightTable with
  | none => { db := d, err := some "no such table: flight_entries", ops := 1 }
  | some cols =>
    if c ∈ cols then { db := d, err := some ("duplicate column name: " ++ c), ops := 1 }
    else { db := { d with flightTable := some (cols ++ [c]) }, err := none, ops := 1 }

/-- The nine columns migration v2 adds to a pre-existing table, in
statement order. -/
def newFlightColumns : List String :=
  [ "departure_airport_id", "arrival_airport_id", "departure_timezone",
    "arrival_timezone", "departure_time_utc", "arrival_time_utc",
    "night_time_method", "night_time_calculated_at", "additional_data" ]

/-- Migration code that issues no statement. -/
def mskip : MigStep := fun d => { db := d, err := none, ops := 0 }

/-- Sequencing of a list of migration statements. -/
def seqAll (l : List MigStep) : MigStep :=
  l.foldl mseq mskip

/-- Bump the op count of a step outcome (for the read query the branch
decision of migration v2 issues). -/
def addOps (n : Nat) (o : StepOut) : StepOut :=
  { o with ops := o.ops + n }

/-- The flight_entries part of MigrationManager.migration_v2: one read
of sqlite_master, then either the fresh-install create or the nine
additive ALTERs followed by the new indexes. -/
def migrationV2Flight : MigStep := fun d =>
  match d.flightTable with
  | none => addOps 1 ((mseq execCreateFlightEntriesTable execCreateFlightIndexesFresh) d)
  | some _ => addOps 1 ((mseq (seqAll (newFlightColumns.map alterAddColumn))
      execCreateFlightIndexesNew) d)

/-- MigrationManager.migration_v2: airports table and indexes, then the
flight_entries branch. -/
def migration_v2 : MigStep :=
  mseq execCreateAirportsTable (mseq execCreateAirportIndexes migrationV2Flight)

/-- INSERT INTO schema_migrations (version, applied_at, description):
fails when the ledger table is absent or the version (the primary key)
is already present. -/
def insertLedger (version : Int) (appliedAt description : String) : MigStep := fun d =>
  match d.schemaMigrations with
  | none => { db := d, err := some "no such table: schema_migrations", ops := 1 }
  | some rows =>
    if rows.any (fun r => decide (r.version = version)) then
      { db := d, err := some "UNIQUE constraint failed: schema_migrations.version", ops := 1 }
    else
      { db := { d with schemaMigrations := some (rows ++ [⟨version, appliedAt, description⟩]) }
        err := none, ops := 1 }

/-- db.withTransactionAsync: commit on normal return, roll the store
back to the pre-transaction state on any raised error. -/
def withTransaction (f : MigStep) : MigStep := fun d =>
  match f d with
  | { db := d1, err := none, ops := n } => { db := d1, err := none, ops := n }
  | { db := _, err := some e, ops := n } => { db := d, err := some e, ops := n }

/-- MigrationManager.runMigration(version, description, migrationFn):
the migration body and the append of its ledger row inside one scoped
transaction; a failure is logged and rethrown. -/
def runMigration (version : Int) (description : String) (migrationFn : MigStep)
    (nowIso : String) : MigStep :=
  withTransaction (mseq migrationFn (insertLedger version nowIso description))

/-- CREATE TABLE IF NOT EXISTS schema_migrations (one statement). -/
def createSchemaMigrationsTable : MigStep := fun d =>
  match d.schemaMigrations with
  | some _ => { db := d, err := none, ops := 1 }
  | none => { db := { d with schemaMigrations := some [] }, err := none, ops := 1 }

def TARGET_SCHEMA_VERSION : Int := 2

def MIGRATION_CHECK_INTERVAL : Int := 24 * 60 * 60 * 1000

/-- MigrationManager.runMigrations(db, fromVersion): create the ledger
table when starting from version 0, then run the v2 step when below
version 2. -/
def runMigrations (fromVersion : Int) (nowIso : String) : MigStep := fun d =>
  let o1 := if fromVersion = 0 then createSchemaMigrationsTable d
            else { db := d, err := none, ops := 0 }
  match o1.err with
  | some _ => o1
  | none =>
    if fromVersion < 2 then
      addOps o1.ops (runMigration 2 "Extended schema with airports" migration_v2 nowIso o1.db)
    else { db := o1.db, err := none, ops := o1.ops }

/-- The MAX aggregate over the ledger versions with the ?? 0 fallback of
getCurrentSchemaVersion. -/
def maxVersion (rows : List LedgerRow) : Int :=
  match rows.map (·.version) with
  | [] => 0
  | v :: vs => vs.foldl max v

/-- MigrationManager.getCurrentSchemaVersion: absence of the ledger
table means version 0 (one read); otherwise MAX(version) ?? 0 (two
reads). -/
def getCurrentSchemaVersion (d : MigDb) : Int × Nat :=
  match d.schemaMigrations with
  | none => (0, 1)
  | some rows => (maxVersion rows, 2)

/-- MigrationManager.shouldSkipMigrationCheck: no persisted timestamp
means no skip; otherwise skip exactly when the elapsed time is strictly
below the throttle window. -/
def shouldSkipMigrationCheck (lastCheck : Option Int) (now : Int) : Bool :=
  match lastCheck with
  | none => false
  | some t => decide (now - t < MIGRATION_CHECK_INTERVAL)

/-- State the migration manager sees: the static in-memory session
version, the persisted last-checked timestamp (parsed), and the
database. -/
structure MigEnv where
  sessionVersion : Option Int
  lastCheck : Option Int
  db : MigDb
deriving DecidableEq, Repr

/-- Outcome of one checkAndRunMigrations call: the state afterwards,
whether the call succeeded, whether a version probe was performed, and
how many database statements and queries were issued. -/
structure MigResult where
  env : MigEnv
  ok : Bool
  probed : Bool
  dbOps : Nat
deriving DecidableEq, Repr

/-- MigrationManager.checkAndRunMigrations: return at once when the
session already reached the target version; skip the probe when checked
recently (marking the session flag); otherwise probe the version, run
pending migrations inside their transactions, and on success record the
session flag and the new last-checked timestamp.  A migration error is
caught and resurfaced as a failure. -/
def checkAndRunMigrations (env : MigEnv) (now : Int) (nowIso : String) : MigResult :=
  if env.sessionVersion = some TARGET_SCHEMA_VERSION then
    { env := env, ok := true, probed := false, dbOps := 0 }
  else if shouldSkipMigrationCheck env.lastCheck now then
    { env := { env with sessionVersion := some TARGET_SCHEMA_VERSION }
      ok := true, probed := false, dbOps := 0 }
  else
    let probe := getCurrentSchemaVersion env.db
    if probe.1 < TARGET_SCHEMA_VERSION then
      match runMigrations probe.1 nowIso env.db with
      | { db := d1, err := none, ops := n } =>
        { env := { sessionVersion := some TARGET_SCHEMA_VERSION, lastCheck := some now,
                   db := d1 }
          ok := true, probed := true, dbOps := probe.2 + n }
      | { db := d1, err := some _, ops := n } =>
        { env := { env with db := d1 }, ok := false, probed := true, dbOps := probe.2 + n }
    else
      { env := { env with
                  sessionVersion := some TARGET_SCHEMA_VERSION
                  lastCheck := some now }
        ok := true, probed := true, dbOps := probe.2 }

/-!
Concrete sample data used by the closed evidence and witness theorems.
-/

/-- A concrete flight_entries row with the given id and sync status. -/
def sampleRow (i : Int) (st : String) : Row :=
  { id := .num i, server_id := .null, pilot_id := .num 7, status := .str "draft"
    flight_date := .str "2024-01-02", aircraft_reg := .str "A6-ABC"
    aircraft_type := .null, route_from := .null, route_to := .null
    pic_time := .num 60, sic_time := .num 0, dual_time := .num 0, night_time := .num 0
    instrument_time := .num 0, total_time := .num 60, landings_day := .num 1
    landings_night := .num 0, remarks := .null, attachments := .null, entry_hash := .null
    sync_status := .str st, last_synced_at := .null
    created_at := .str "2024-01-02 10:00:00", updated_at := .str "2024-01-02 10:00:00"
    departure_airport_id := .null, arrival_airport_id := .null
    departure_timezone := .null, arrival_timezone := .null
    departure_time_utc := .null, arrival_time_utc := .null
    night_time_method := .str "manual", night_time_calculated_at := .null
    additional_data := .null }

/-- A response item with every key absent. -/
def emptyItem : RespItem :=
  { localId := .undefined, local_id := .undefined, id := .undefined, serverId := .undefined,
    server_id := .undefined }

/-- A response item carrying localId and serverId, as the server reports
a synced entry. -/
def syncedItem (l s : Int) : RespItem :=
  { emptyItem with localId := .num l, serverId := .num s }

/-- A response item carrying only an id, as the server reports a failed
entry. -/
def failedItem (l : Int) : RespItem :=
  { emptyItem with id := .num l }

/-!
Helper lemmas about the persistence layer.
-/

theorem sqlValueEq_eq {a b : Value} (h : sqlValueEq a b = true) : a = b := by
  simp only [sqlValueEq, Bool.and_eq_true, decide_eq_true_eq] at h
  exact h.2

theorem sqlValueEq_false_of_ne {a b : Value} (h : a ≠ b) : sqlValueEq a b = false := by
  cases hb : sqlValueEq a b
  · rfl
  · exact absurd (sqlValueEq_eq hb) h

theorem keepKey_spec {kv : FieldKey × Value} (h : keepKey kv = true) :
    kv.1 ≠ FieldKey.id ∧ kv.1 ≠ FieldKey.createdAt := by
  simpa [keepKey] using h

theorem setField_id_of_ne (k : FieldKey) (v : Value) (r : Row)
    (h : k ≠ FieldKey.id) : (setField k v r).id = r.id := by
  cases k <;> first | rfl | exact absurd rfl h

theorem setField_created_at_of_ne (k : FieldKey) (v : Value) (r : Row)
    (h : k ≠ FieldKey.createdAt) : (setField k v r).created_at = r.created_at := by
  cases k <;> first | rfl | exact absurd rfl h

theorem setField_sync_status_of_ne (k : FieldKey) (v : Value) (r : Row)
    (h : k ≠ FieldKey.syncStatus) : (setField k v r).sync_status = r.sync_status := by
  cases k <;> first | rfl | exact absurd rfl h

theorem applyFields_id (fields : Patch) (r : Row)
    (h : ∀ kv ∈ fields, kv.1 ≠ FieldKey.id) : (applyFields fields r).id = r.id := by
  induction fields generalizing r with
  | nil => rfl
  | cons kv tl ih =>
    have h1 : kv.1 ≠ FieldKey.id := h kv (List.mem_cons_self _ _)
    have h2 : ∀ x ∈ tl, x.1 ≠ FieldKey.id := fun x hx => h x (List.mem_cons_of_mem _ hx)
    simp only [applyFields, List.foldl_cons] at *
    rw [ih _ h2, setField_id_of_ne _ _ _ h1]

theorem applyFields_created_at (fields : Patch) (r : Row)
    (h : ∀ kv ∈ fields, kv.1 ≠ FieldKey.createdAt) :
    (applyFields fields r).created_at = r.created_at := by
  induction fields generalizing r with
  | nil => rfl
  | cons kv tl ih =>
    have h1 : kv.1 ≠ FieldKey.createdAt := h kv (List.mem_cons_self _ _)
    have h2 : ∀ x ∈ tl, x.1 ≠ FieldKey.createdAt :=
      fun x hx => h x (List.mem_cons_of_mem _ hx)
    simp only [applyFields, List.foldl_cons] at *
    rw [ih _ h2, setField_created_at_of_ne _ _ _ h1]

theorem applyFields_sync_status (fields : Patch) (r : Row)
    (h : ∀ kv ∈ fields, kv.1 ≠ FieldKey.syncStatus) :
    (applyFields fields r).sync_status = r.sync_status := by
  induction fields generalizing r with
  | nil => rfl
  | cons kv tl ih =>
    have h1 : kv.1 ≠ FieldKey.syncStatus := h kv (List.mem_cons_self _ _)
    have h2 : ∀ x ∈ tl, x.1 ≠ FieldKey.syncStatus :=
      fun x hx => h x (List.mem_cons_of_mem _ hx)
    simp only [applyFields, List.foldl_cons] at *
    rw [ih _ h2, setField_sync_status_of_ne _ _ _ h1]

theorem map_map_proj (l : List Row) (f : Row → Row) (p : Row → Value)
    (h : ∀ r, p (f r) = p r) : (l.map f).map p = l.map p := by
  induction l with
  | nil => rfl
  | cons r tl ih => simp [h r, ih]

theorem countP_disjoint_le {α} (l : List α) (p q : α → Bool)
    (h : ∀ a, p a = true → q a = false) :
    l.countP p + l.countP q ≤ l.length := by
  induction l with
  | nil => simp
  | cons a tl ih =>
    rcases hp : p a with _ | _ <;> rcases hq : q a with _ | _ <;>
        simp [List.countP_cons, hp, hq, List.length_cons]
    · omega
    · omega
    · omega
    · exact absurd (h a hp) (by simp [hq])

theorem isPendingRow_not_synced (r : Row) (h : isPendingRow r = true) :
    isSyncedRow r = false := by
  have := sqlValueEq_eq h
  rw [isSyncedRow, this]
  rfl

/-- C10: for every database state, getStats satisfies
pending + synced <= total; a row whose sync status is error counts in
total (the plain row count) but in neither the pending nor the synced
bucket; on the empty table all three counts are 0 and lastSyncedAt is
null. -/
theorem claim_C10_getStats_invariant :
    (∀ db : List Row,
        (getStats db).pending + (getStats db).synced ≤ (getStats db).total) ∧
    (∀ db : List Row, ∀ r ∈ db, r.sync_status = Value.str "error" →
        isPendingRow r = false ∧ isSyncedRow r = false ∧
        (getStats db).total = db.length) ∧
    getStats [] = { total := 0, pending := 0, synced := 0, lastSyncedAt := Value.null } := by
  refine ⟨fun db => ?_, fun db r _ herr => ?_, rfl⟩
  · exact countP_disjoint_le db isPendingRow isSyncedRow isPendingRow_not_synced
  · refine ⟨?_, ?_, rfl⟩
    · rw [isPendingRow, herr]; rfl
    · rw [isSyncedRow, herr]; rfl

theorem claim_C10_getStats_invariant_witness :
    (getStats [sampleRow 1 "pending", sampleRow 2 "error"]).pending +
        (getStats [sampleRow 1 "pending", sampleRow 2 "error"]).synced ≤
      (getStats [sampleRow 1 "pending", sampleRow 2 "error"]).total ∧
    isPendingRow (sampleRow 2 "error") = false :=
  ⟨claim_C10_getStats_invariant.1 _,
   (claim_C10_getStats_invariant.2.1 [sampleRow 1 "pending", sampleRow 2 "error"]
      (sampleRow 2 "error") (by decide) rfl).1⟩

/-- C9: updateEntry strips the id and createdAt keys from every patch
before building the statement, so the local identity and the creation
timestamp of every row are unchanged by any update, and whenever the
statement actually executes (some key survives the strip and every
surviving key has a backing column) the matched row has its updatedAt
refreshed to the statement time. -/
theorem claim_C9_updateEntry_keeps_identity :
    ∀ (db : List Row) (i : Value) (updates : Patch) (now : Value),
      ((updateEntry db i updates now).1.map (·.id) = db.map (·.id)) ∧
      ((updateEntry db i updates now).1.map (·.created_at) = db.map (·.created_at)) ∧
      ((updates.filter keepKey).isEmpty = false →
        ((updates.filter keepKey).all fun kv => kv.1.hasColumn) = true →
        ∀ r ∈ (updateEntry db i updates now).1, sqlValueEq r.id i = true →
          r.updated_at = now) := by
  intro db i updates now
  by_cases h0 : updates.isEmpty = true
  · have : updates = [] := by simpa using h0
    subst this
    exact ⟨rfl, rfl, fun hF _ _ _ _ => by simp at hF⟩
  rw [Bool.not_eq_true] at h0
  by_cases h1 : (updates.filter keepKey).isEmpty = true
  · refine ⟨?_, ?_, fun hF _ _ _ _ => by rw [h1] at hF; cases hF⟩ <;>
      simp [updateEntry, h0, h1]
  rw [Bool.not_eq_true] at h1
  by_cases h2 : ((updates.filter keepKey).all fun kv => kv.1.hasColumn) = true
  · have hmem : ∀ kv ∈ updates.filter keepKey,
        kv.1 ≠ FieldKey.id ∧ kv.1 ≠ FieldKey.createdAt := by
      intro kv hkv
      exact keepKey_spec (List.of_mem_filter hkv)
    have hdb : (updateEntry db i updates now).1 = db.map (fun r =>
        if sqlValueEq r.id i then
          { applyFields (updates.filter keepKey) r with updated_at := now }
        else r) := by
      simp [updateEntry, h0, h1, h2]
    refine ⟨?_, ?_, ?_⟩
    · rw [hdb]
      refine map_map_proj db _ _ fun r => ?_
      by_cases hc : sqlValueEq r.id i = true
      · simp only [hc, if_true]
        exact applyFields_id _ r fun kv hkv => (hmem kv hkv).1
      · rw [Bool.not_eq_true] at hc
        simp [hc]
    · rw [hdb]
      refine map_map_proj db _ _ fun r => ?_
      by_cases hc : sqlValueEq r.id i = true
      · simp only [hc, if_true]
        exact applyFields_created_at _ r fun kv hkv => (hmem kv hkv).2
      · rw [Bool.not_eq_true] at hc
        simp [hc]
    · intro _ _ r hr hid
      rw [hdb] at hr
      obtain ⟨r0, _, rfl⟩ := List.mem_map.mp hr
      have hidr0 : sqlValueEq r0.id i = true := by
        rcases hc : sqlValueEq r0.id i with _ | _
        · simp [hc] at hid
        · rfl
      simp [hidr0]
  · rw [Bool.not_eq_true] at h2
    have hdb : (updateEntry db i updates now).1 = db := by
      simp [updateEntry, h0, h1, h2]
    exact ⟨by rw [hdb], by rw [hdb], fun _ hA _ _ _ => by rw [h2] at hA; cases hA⟩

theorem claim_C9_updateEntry_keeps_identity_witness :
    ((updateEntry [sampleRow 1 "synced"] (.num 1)
        [(FieldKey.remarks, .str "note")] (.str "2024-02-01 00:00:00")).1.map (·.id) =
      [Value.num 1]) ∧
    ((updateEntry [sampleRow 1 "synced"] (.num 1)
        [(FieldKey.remarks, .str "note")] (.str "2024-02-01 00:00:00")).1.map (·.created_at) =
      [Value.str "2024-01-02 10:00:00"]) :=
  have h := claim_C9_updateEntry_keeps_identity [sampleRow 1 "synced"] (.num 1)
    [(FieldKey.remarks, .str "note")] (.str "2024-02-01 00:00:00")
  ⟨h.1, h.2.1⟩

/-- C2 counterexample: a synced entry patched on the domain field
picTime, with no syncStatus key in the patch, still has
syncStatus = synced after updateEntry, not pending. -/
theorem claim_C2_counterexample :
    ((updateEntry [sampleRow 1 "synced"] (.num 1) [(FieldKey.picTime, .num 120)]
        (.str "2024-02-01 00:00:00")).1.map (·.sync_status) = [Value.str "synced"]) ∧
    Value.str "synced" ≠ Value.str "pending" := by
  decide

/-- C2 amended: updateEntry leaves syncStatus untouched whenever the
patch does not itself carry a syncStatus key; the reset of an edited
synced entry back to pending is performed by the callers, which put
syncStatus = pending into the patch explicitly. -/
theorem claim_C2_update_keeps_sync_status :
    ∀ (db : List Row) (i : Value) (updates : Patch) (now : Value),
      (∀ kv ∈ updates, kv.1 ≠ FieldKey.syncStatus) →
      (updateEntry db i updates now).1.map (·.sync_status) = db.map (·.sync_status) := by
  intro db i updates now hno
  by_cases h0 : updates.isEmpty = true
  · simp [updateEntry, h0]
  rw [Bool.not_eq_true] at h0
  by_cases h1 : (updates.filter keepKey).isEmpty = true
  · simp [updateEntry, h0, h1]
  rw [Bool.not_eq_true] at h1
  by_cases h2 : ((updates.filter keepKey).all fun kv => kv.1.hasColumn) = true
  · have hdb : (updateEntry db i updates now).1 = db.map (fun r =>
        if sqlValueEq r.id i then
          { applyFields (updates.filter keepKey) r with updated_at := now }
        else r) := by
      simp [updateEntry, h0, h1, h2]
    rw [hdb]
    refine map_map_proj db _ _ fun r => ?_
    by_cases hc : sqlValueEq r.id i = true
    · simp only [hc, if_true]
      exact applyFields_sync_status _ r fun kv hkv =>
        hno kv (List.mem_of_mem_filter hkv)
    · rw [Bool.not_eq_true] at hc
      simp [hc]
  · rw [Bool.not_eq_true] at h2
    simp [updateEntry, h0, h1, h2]

theorem claim_C2_update_keeps_sync_status_witness :
    (updateEntry [sampleRow 1 "synced"] (.num 1) [(FieldKey.picTime, .num 120)]
        (.str "2024-02-01 00:00:00")).1.map (·.sync_status) = [Value.str "synced"] :=
  claim_C2_update_keeps_sync_status [sampleRow 1 "synced"] (.num 1)
    [(FieldKey.picTime, .num 120)] (.str "2024-02-01 00:00:00") (by decide)

/-- C1 evidence: on a transport-level failure the pending batch does
not stay pending.  On an axios "Network Error" pushEntries marks the
whole batch synced (fabricating server_id and last_synced_at) and
reports success; on any other thrown failure it marks every entry
error.  The claim (and the specification) require the entries to remain
pending in both cases. -/
theorem claim_C1_transport_failure_rewrites_batch :
    ((pushEntries [sampleRow 1 "pending"]
        (getPendingSyncEntries [sampleRow 1 "pending"]) .networkError false
        (.str "2024-02-01 00:00:00")).db.map (fun r => (r.sync_status, r.server_id)) =
      [(Value.str "synced", Value.num 1)]) ∧
    (pushEntries [sampleRow 1 "pending"]
        (getPendingSyncEntries [sampleRow 1 "pending"]) .networkError false
        (.str "2024-02-01 00:00:00")).result.success = true ∧
    ((pushEntries [sampleRow 1 "pending"]
        (getPendingSyncEntries [sampleRow 1 "pending"])
        (.failure "Request failed with status code 500") false
        (.str "2024-02-01 00:00:00")).db.map (·.sync_status) =
      [Value.str "error"]) := by
  decide

/-- C5: a syncNow call arriving while a pass is already syncing returns
at once with the unsuccessful "Sync already in progress" result, issues
no remote submission, changes neither the store nor the service state,
and emits nothing (nothing is queued). -/
theorem claim_C5_already_syncing_guard :
    ∀ (svc : SvcState) (db : List Row) (connected : Bool) (remote : RemoteOutcome)
      (silent : Bool) (now : Value),
      svc.syncing = true →
      syncNow svc db connected remote silent now =
        { svc := svc, db := db
          result := { success := false, synced := none, failed := none,
                      error := some "Sync already in progress" }
          submissions := 0, emitted := [] } := by
  intro svc db connected remote silent now h
  simp [syncNow, h]

theorem claim_C5_already_syncing_guard_witness :
    syncNow { syncing := true, currentStatus := ⟨"syncing", 0, none⟩ }
        [sampleRow 1 "pending"] true .networkError false (.str "t") =
      { svc := { syncing := true, currentStatus := ⟨"syncing", 0, none⟩ }
        db := [sampleRow 1 "pending"]
        result := { success := false, synced := none, failed := none,
                    error := some "Sync already in progress" }
        submissions := 0, emitted := [] } :=
  claim_C5_already_syncing_guard _ _ true .networkError false _ rfl

/-!
Row-level reformulation of the two write-back loops of pushEntries.
-/

/-- Per-row effect of one iteration of the synced loop. -/
def syncedRowStep (syncedItems : List RespItem) (now : Value) (e : FlightEntry)
    (r : Row) : Row :=
  if entryCond syncedItems e then markRow e.id (entrySid syncedItems e) now r else r

/-- Per-row effect of one iteration of the failed loop. -/
def errRow (l now : Value) (r : Row) : Row :=
  if sqlValueEq r.id l then { r with sync_status := .str "error", updated_at := now } else r

/-- Per-row effect of one pushFailedStep. -/
def failedRowStep (now : Value) (f : RespItem) (r : Row) : Row :=
  if (failLocal f).truthy then errRow (failLocal f) now r else r

theorem updateEntry_syncError (db : List Row) (l now : Value) :
    (updateEntry db l [(FieldKey.syncStatus, .str "error")] now).1 =
      db.map (errRow l now) :=
  rfl

theorem foldl_condmap {α} (l : List α) (db : List Row) (c : α → Bool)
    (g : α → Row → Row) :
    l.foldl (fun d a => if c a then d.map (g a) else d) db
      = db.map (fun r => l.foldl (fun r a => if c a then g a r else r) r) := by
  induction l generalizing db with
  | nil => simp
  | cons hd tl ih =>
    rcases hc : c hd with _ | _
    · simp [hc, ih]
    · simp only [List.foldl_cons, hc, if_true]
      rw [ih, List.map_map]
      rfl

theorem foldl_syncedStep_fst (entries : List FlightEntry)
    (syncedItems : List RespItem) (now : Value) (db : List Row) (n : Nat) :
    (entries.foldl (pushSyncedStep syncedItems now) (db, n)).1
      = entries.foldl (fun d e =>
          if entryCond syncedItems e then
            markAsSynced d e.id (entrySid syncedItems e) now
          else d) db := by
  induction entries generalizing db n with
  | nil => rfl
  | cons e tl ih =>
    simp only [List.foldl_cons, pushSyncedStep]
    by_cases hc : entryCond syncedItems e = true
    · rw [if_pos hc, if_pos hc]
      exact ih _ _
    · rw [if_neg hc, if_neg hc]
      exact ih db n

theorem foldl_syncedStep_snd (entries : List FlightEntry)
    (syncedItems : List RespItem) (now : Value) (db : List Row) (n : Nat) :
    (entries.foldl (pushSyncedStep syncedItems now) (db, n)).2
      = n + entries.countP (entryCond syncedItems) := by
  induction entries generalizing db n with
  | nil => simp
  | cons e tl ih =>
    simp only [List.foldl_cons, pushSyncedStep, List.countP_cons]
    by_cases hc : entryCond syncedItems e = true
    · rw [if_pos hc, if_pos hc, ih]
      omega
    · rw [if_neg hc, if_neg hc, ih]
      omega

theorem syncedLoop_as_rowfold (entries : List FlightEntry)
    (syncedItems : List RespItem) (now : Value) (db : List Row) (n : Nat) :
    (entries.foldl (pushSyncedStep syncedItems now) (db, n)).1
      = db.map (fun r => entries.foldl
          (fun r e => syncedRowStep syncedItems now e r) r) := by
  rw [foldl_syncedStep_fst]
  have h : (fun (d : List Row) (e : FlightEntry) =>
      if entryCond syncedItems e then markAsSynced d e.id (entrySid syncedItems e) now
      else d)
    = fun d e => if entryCond syncedItems e then
        d.map (markRow e.id (entrySid syncedItems e) now) else d := rfl
  rw [h, foldl_condmap]
  rfl

theorem failedLoop_as_rowfold (failedItems : List RespItem) (now : Value)
    (db : List Row) :
    failedItems.foldl (pushFailedStep now) db
      = db.map (fun r => failedItems.foldl (fun r f => failedRowStep now f r) r) := by
  have h : pushFailedStep now = fun d f =>
      if (failLocal f).truthy then d.map (errRow (failLocal f) now) else d := by
    funext d f
    rw [pushFailedStep, updateEntry_syncError]
  rw [h, foldl_condmap]
  rfl

theorem markRow_id (i s now : Value) (r : Row) : (markRow i s now r).id = r.id := by
  rw [markRow]
  split <;> rfl

theorem errRow_id (l now : Value) (r : Row) : (errRow l now r).id = r.id := by
  rw [errRow]
  split <;> rfl

theorem syncedRowStep_id (syncedItems : List RespItem) (now : Value)
    (e : FlightEntry) (r : Row) : (syncedRowStep syncedItems now e r).id = r.id := by
  rw [syncedRowStep]
  split
  · exact markRow_id _ _ _ _
  · rfl

theorem failedRowStep_id (now : Value) (f : RespItem) (r : Row) :
    (failedRowStep now f r).id = r.id := by
  rw [failedRowStep]
  split
  · exact errRow_id _ _ _
  · rfl

theorem syncedRowFold_id (entries : List FlightEntry) (syncedItems : List RespItem)
    (now : Value) (r : Row) :
    (entries.foldl (fun r e => syncedRowStep syncedItems now e r) r).id = r.id := by
  induction entries generalizing r with
  | nil => rfl
  | cons e tl ih =>
    simp only [List.foldl_cons]
    rw [ih, syncedRowStep_id]

theorem failedRowFold_id (failedItems : List RespItem) (now : Value) (r : Row) :
    (failedItems.foldl (fun r f => failedRowStep now f r) r).id = r.id := by
  induction failedItems generalizing r with
  | nil => rfl
  | cons f tl ih =>
    simp only [List.foldl_cons]
    rw [ih, failedRowStep_id]

theorem syncedRowFold_of_no_match (entries : List FlightEntry)
    (syncedItems : List RespItem) (now : Value) (r : Row)
    (h : ∀ e ∈ entries, sqlValueEq r.id e.id = false) :
    entries.foldl (fun r e => syncedRowStep syncedItems now e r) r = r := by
  induction entries with
  | nil => rfl
  | cons e tl ih =>
    have hstep : syncedRowStep syncedItems now e r = r := by
      rw [syncedRowStep, markRow, h e (List.mem_cons_self _ _)]
      simp
    simp only [List.foldl_cons, hstep]
    exact ih fun x hx => h x (List.mem_cons_of_mem _ hx)

theorem syncedRowFold_of_unique_match (entries : List FlightEntry)
    (syncedItems : List RespItem) (now : Value) (r : Row) (e : FlightEntry)
    (he : e ∈ entries) (hnd : (entries.map (·.id)).Nodup)
    (hc : entryCond syncedItems e = true) (hm : sqlValueEq r.id e.id = true) :
    entries.foldl (fun r e => syncedRowStep syncedItems now e r) r
      = markRow e.id (entrySid syncedItems e) now r := by
  induction entries generalizing r with
  | nil => cases he
  | cons hd tl ih =>
    rw [List.map_cons, List.nodup_cons] at hnd
    rcases List.mem_cons.mp he with rfl | he2
    · simp only [List.foldl_cons, syncedRowStep, hc, if_true]
      refine syncedRowFold_of_no_match tl syncedItems now _ fun x hx => ?_
      rw [markRow_id]
      have hrx : r.id = e.id := sqlValueEq_eq hm
      have hne : e.id ≠ x.id := by
        intro hcontra
        exact hnd.1 (hcontra ▸ List.mem_map_of_mem (·.id) hx)
      rw [hrx]
      exact sqlValueEq_false_of_ne hne
    · have hhd : sqlValueEq r.id hd.id = false := by
        have hrx : r.id = e.id := sqlValueEq_eq hm
        have hne : e.id ≠ hd.id := by
          intro hcontra
          exact hnd.1 (hcontra ▸ List.mem_map_of_mem (·.id) he2)
        rw [hrx]
        exact sqlValueEq_false_of_ne hne
      have hstep : syncedRowStep syncedItems now hd r = r := by
        rw [syncedRowStep, markRow, hhd]
        simp
      simp only [List.foldl_cons, hstep]
      exact ih r he2 hnd.2 hm

theorem failedRowFold_of_no_match (failedItems : List RespItem) (now : Value)
    (r : Row) (h : ∀ f ∈ failedItems, sqlValueEq r.id (failLocal f) = false) :
    failedItems.foldl (fun r f => failedRowStep now f r) r = r := by
  induction failedItems with
  | nil => rfl
  | cons f tl ih =>
    have hstep : failedRowStep now f r = r := by
      rw [failedRowStep, errRow, h f (List.mem_cons_self _ _)]
      simp
    simp only [List.foldl_cons, hstep]
    exact ih fun x hx => h x (List.mem_cons_of_mem _ hx)

theorem failedRowFold_keeps_error (failedItems : List RespItem) (now : Value)
    (r : Row) (h : r.sync_status = .str "error") :
    (failedItems.foldl (fun r f => failedRowStep now f r) r).sync_status
      = .str "error" := by
  induction failedItems generalizing r with
  | nil => exact h
  | cons f tl ih =>
    simp only [List.foldl_cons, failedRowStep, errRow]
    split
    · split
      · exact ih _ rfl
      · exact ih _ h
    · exact ih _ h

theorem failedRowFold_sets_error (failedItems : List RespItem) (now : Value)
    (r : Row) (f : RespItem) (hf : f ∈ failedItems)
    (ht : (failLocal f).truthy = true) (hm : sqlValueEq r.id (failLocal f) = true) :
    (failedItems.foldl (fun r f => failedRowStep now f r) r).sync_status
      = .str "error" := by
  induction failedItems generalizing r with
  | nil => cases hf
  | cons hd tl ih =>
    rcases List.mem_cons.mp hf with rfl | hf2
    · simp only [List.foldl_cons, failedRowStep, errRow, ht, hm, if_true]
      exact failedRowFold_keeps_error tl now _ rfl
    · simp only [List.foldl_cons]
      have hid : (failedRowStep now hd r).id = r.id := failedRowStep_id now hd r
      exact ih _ hf2 (hid ▸ hm)

theorem pushEntries_ok_db (db : List Row) (entries : List FlightEntry)
    (resp : SyncResponse) (silent : Bool) (now : Value)
    (hne : ¬(entries.length = 0)) :
    (pushEntries db entries (.ok resp) silent now).db
      = (db.map (fun r => entries.foldl
            (fun r e => syncedRowStep (resp.synced.getD []) now e r) r)).map
          (fun r => (resp.failed.getD []).foldl (fun r f => failedRowStep now f r) r) := by
  simp only [pushEntries, if_neg hne]
  by_cases hfc : (resp.failed.getD []).length > 0
  · simp only [if_pos hfc]
    rw [syncedLoop_as_rowfold, failedLoop_as_rowfold]
  · simp only [if_neg hfc]
    have : resp.failed.getD [] = [] := by
      rcases h : resp.failed.getD [] with _ | ⟨a, l⟩
      · rfl
      · rw [h] at hfc
        simp at hfc
    rw [syncedLoop_as_rowfold, this]
    simp only [List.foldl_nil]
    rw [List.map_id']

theorem pushEntries_ok_result (db : List Row) (entries : List FlightEntry)
    (resp : SyncResponse) (silent : Bool) (now : Value)
    (hne : ¬(entries.length = 0)) :
    (pushEntries db entries (.ok resp) silent now).result
      = { success := decide ((resp.failed.getD []).length = 0)
          synced := some (entries.countP (entryCond (resp.synced.getD [])))
          failed := some (resp.failed.getD []).length
          error := responseErrorMessage resp } := by
  simp only [pushEntries, if_neg hne]
  by_cases hfc : (resp.failed.getD []).length > 0 <;>
    simp only [if_pos, if_neg, hfc, foldl_syncedStep_snd, Nat.zero_add]

/-- C4: a successful remote response carrying no per-entry detail
(no synced array and no failed array) makes the pass treat the whole
batch as synced: the result reports success with zero failed and a
synced count equal to the batch size, and every row of the batch is
marked synced with server_id the existing serverId of the entry or,
when absent, its local id. -/
theorem claim_C4_degenerate_response_marks_all_synced :
    ∀ (db : List Row) (entries : List FlightEntry) (resp : SyncResponse)
      (silent : Bool) (now : Value),
      resp.synced = none → resp.failed = none →
      (entries.map (·.id)).Nodup →
      ((pushEntries db entries (.ok resp) silent now).result.success = true ∧
       (pushEntries db entries (.ok resp) silent now).result.failed = some 0 ∧
       (pushEntries db entries (.ok resp) silent now).result.synced =
         some entries.length ∧
       ∀ e ∈ entries, ∀ r ∈ (pushEntries db entries (.ok resp) silent now).db,
         sqlValueEq r.id e.id = true →
           r.sync_status = .str "synced" ∧ r.server_id = coalesce e.serverId e.id) := by
  intro db entries resp silent now hs hf hnd
  by_cases hne : entries.length = 0
  · have : entries = [] := List.length_eq_zero.mp hne
    subst this
    exact ⟨rfl, rfl, rfl, fun e he => absurd he (List.not_mem_nil e)⟩
  · have hres := pushEntries_ok_result db entries resp silent now hne
    have hdb := pushEntries_ok_db db entries resp silent now hne
    rw [hs] at hdb
    rw [hf] at hdb
    simp only [Option.getD_none, List.foldl_nil] at hdb
    rw [List.map_id'] at hdb
    have hcond : ∀ e : FlightEntry, entryCond [] e = true := by
      intro e
      rw [entryCond]
      simp [entryMatched]
    refine ⟨?_, ?_, ?_, ?_⟩
    · rw [hres, hs, hf]
      rfl
    · rw [hres, hf]
      rfl
    · rw [hres, hs, hf]
      simp only [Option.getD_none]
      rw [List.countP_eq_length.mpr fun e _ => hcond e]
    · intro e he r hr hid
      rw [hdb] at hr
      obtain ⟨r0, _, rfl⟩ := List.mem_map.mp hr
      have hid0 : sqlValueEq r0.id e.id = true := by
        rw [← syncedRowFold_id entries [] now r0]
        exact hid
      rw [syncedRowFold_of_unique_match entries [] now r0 e he hnd (hcond e) hid0]
      rw [markRow, if_pos hid0]
      exact ⟨rfl, rfl⟩

theorem claim_C4_degenerate_response_marks_all_synced_witness :
    (pushEntries [sampleRow 1 "pending"]
        (getPendingSyncEntries [sampleRow 1 "pending"])
        (.ok ⟨none, none, none, none⟩) false (.str "2024-02-01 00:00:00")).result.success
        = true ∧
    ((pushEntries [sampleRow 1 "pending"]
        (getPendingSyncEntries [sampleRow 1 "pending"])
        (.ok ⟨none, none, none, none⟩) false
        (.str "2024-02-01 00:00:00")).db.getD 0 (sampleRow 1 "pending")).sync_status
        = Value.str "synced" :=
  have h := claim_C4_degenerate_response_marks_all_synced [sampleRow 1 "pending"]
    (getPendingSyncEntries [sampleRow 1 "pending"]) ⟨none, none, none, none⟩ false
    (.str "2024-02-01 00:00:00") rfl rfl (by decide)
  ⟨h.1, (h.2.2.2 (mapRowToEntry (sampleRow 1 "pending")) (by decide) _ (by decide)
    (by decide)).1⟩

/-- C3: when the response carries a synced array and a failed array,
each entry found in the synced array (and not named by any failed item)
ends with syncStatus = synced and server_id the server-assigned id of
its item, and each row named by a failed item with a truthy local
identity ends with syncStatus = error. -/
theorem claim_C3_sync_outcome_mapping :
    ∀ (db : List Row) (entries : List FlightEntry) (resp : SyncResponse)
      (syncedItems failedItems : List RespItem) (silent : Bool) (now : Value),
      resp.synced = some syncedItems → resp.failed = some failedItems →
      ¬(entries.length = 0) → (entries.map (·.id)).Nodup →
      ((∀ e ∈ entries, ∀ it, entryMatched syncedItems e = some it →
          ∀ s : Int, it.serverId = .num s →
          (∀ f ∈ failedItems, failLocal f ≠ e.id) →
          ∀ r ∈ (pushEntries db entries (.ok resp) silent now).db,
            sqlValueEq r.id e.id = true →
              r.sync_status = .str "synced" ∧ r.server_id = .num s) ∧
       (∀ f ∈ failedItems, (failLocal f).truthy = true →
          ∀ r ∈ (pushEntries db entries (.ok resp) silent now).db,
            sqlValueEq r.id (failLocal f) = true →
              r.sync_status = .str "error")) := by
  intro db entries resp si fi silent now hs hf hne hnd
  have hdb := pushEntries_ok_db db entries resp silent now hne
  rw [hs, hf] at hdb
  simp only [Option.getD_some] at hdb
  constructor
  · intro e he it hit s hsid hnof r hr hid
    rw [hdb] at hr
    obtain ⟨r1, hr1, rfl⟩ := List.mem_map.mp hr
    obtain ⟨r0, hr0, rfl⟩ := List.mem_map.mp hr1
    have hidr0 : sqlValueEq r0.id e.id = true := by
      have hch : (fi.foldl (fun r f => failedRowStep now f r)
          (entries.foldl (fun r e => syncedRowStep si now e r) r0)).id = r0.id := by
        rw [failedRowFold_id, syncedRowFold_id]
      rw [← hch]
      exact hid
    have hcond : entryCond si e = true := by
      rw [entryCond, hit]
      rfl
    rw [syncedRowFold_of_unique_match entries si now r0 e he hnd hcond hidr0]
    have hnomatch : ∀ f ∈ fi,
        sqlValueEq (markRow e.id (entrySid si e) now r0).id (failLocal f) = false := by
      intro f hfm
      rw [markRow_id, sqlValueEq_eq hidr0]
      exact sqlValueEq_false_of_ne (hnof f hfm).symm
    rw [failedRowFold_of_no_match fi now _ hnomatch]
    rw [markRow, if_pos hidr0]
    refine ⟨rfl, ?_⟩
    show entrySid si e = Value.num s
    rw [entrySid, hit]
    show coalesce it.serverId _ = Value.num s
    rw [hsid]
    rfl
  · intro f hfm ht r hr hid
    rw [hdb] at hr
    obtain ⟨r1, hr1, rfl⟩ := List.mem_map.mp hr
    have hid1 : sqlValueEq r1.id (failLocal f) = true := by
      rw [← failedRowFold_id fi now r1]
      exact hid
    exact failedRowFold_sets_error fi now r1 f hfm ht hid1

/-- The pending batch of the representative sync-outcome scenario. -/
def c3db : List Row :=
  [sampleRow 1 "pending", sampleRow 2 "pending", sampleRow 3 "pending"]

/-- The response of the representative scenario: entries 1 and 2 synced
with server ids 101 and 102, entry 3 failed. -/
def c3resp : SyncResponse :=
  { synced := some [syncedItem 1 101, syncedItem 2 102]
    failed := some [failedItem 3], errors := none, error := none }

/-- The pass outcome of the representative scenario. -/
def c3out : PushOutcome :=
  pushEntries c3db (getPendingSyncEntries c3db) (.ok c3resp) false
    (.str "2024-02-01 00:00:00")

theorem claim_C3_sync_outcome_mapping_witness :
    (c3out.db.getD 0 (sampleRow 1 "pending")).sync_status = Value.str "synced" ∧
    (c3out.db.getD 0 (sampleRow 1 "pending")).server_id = Value.num 101 ∧
    (c3out.db.getD 1 (sampleRow 1 "pending")).sync_status = Value.str "synced" ∧
    (c3out.db.getD 1 (sampleRow 1 "pending")).server_id = Value.num 102 ∧
    (c3out.db.getD 2 (sampleRow 1 "pending")).sync_status = Value.str "error" := by
  have h := claim_C3_sync_outcome_mapping c3db (getPendingSyncEntries c3db) c3resp
    [syncedItem 1 101, syncedItem 2 102] [failedItem 3] false
    (.str "2024-02-01 00:00:00") rfl rfl (by decide) (by decide)
  have h1 := h.1 (mapRowToEntry (sampleRow 1 "pending")) (by decide)
    (syncedItem 1 101) (by decide) 101 rfl (by decide)
    (c3out.db.getD 0 (sampleRow 1 "pending")) (by decide) (by decide)
  have h2 := h.1 (mapRowToEntry (sampleRow 2 "pending")) (by decide)
    (syncedItem 2 102) (by decide) 102 rfl (by decide)
    (c3out.db.getD 1 (sampleRow 1 "pending")) (by decide) (by decide)
  have h3 := h.2 (failedItem 3) (by decide) (by decide)
    (c3out.db.getD 2 (sampleRow 1 "pending")) (by decide) (by decide)
  exact ⟨h1.1, h1.2, h2.1, h2.2, h3⟩

/-!
Helper lemmas about the migration manager.
-/

theorem le_foldl_max (l : List Int) (a : Int) : a ≤ l.foldl max a := by
  induction l generalizing a with
  | nil => exact le_refl a
  | cons x xs ih => exact le_trans (le_max_left a x) (ih (max a x))

theorem mem_le_foldl_max (l : List Int) (a v : Int) (h : v ∈ l) :
    v ≤ l.foldl max a := by
  induction l generalizing a with
  | nil => cases h
  | cons x xs ih =>
    rcases List.mem_cons.mp h with rfl | h2
    · exact le_trans (le_max_right a v) (le_foldl_max xs (max a v))
    · exact ih (max a x) h2

theorem mem_le_maxVersion (rows : List LedgerRow) (r : LedgerRow) (h : r ∈ rows) :
    r.version ≤ maxVersion rows := by
  have hmem : r.version ∈ rows.map (·.version) := List.mem_map_of_mem _ h
  rw [maxVersion]
  rcases hrows : rows.map (·.version) with _ | ⟨v, vs⟩
  · rw [hrows] at hmem
    cases hmem
  · rw [hrows] at hmem ⊢
    rcases List.mem_cons.mp hmem with heq | h2
    · rw [heq]
      exact le_foldl_max vs v
    · exact mem_le_foldl_max vs v r.version h2

/-- A piece of migration code that never touches the schema_migrations
ledger. -/
def keepsLedger (f : MigStep) : Prop :=
  ∀ d, ((f d).db).schemaMigrations = d.schemaMigrations

theorem keepsLedger_mseq {a b : MigStep} (ha : keepsLedger a) (hb : keepsLedger b) :
    keepsLedger (mseq a b) := by
  intro d
  rcases h : a d with ⟨d1, e1, n1⟩
  have ha2 : d1.schemaMigrations = d.schemaMigrations := by
    have hx := ha d
    rw [h] at hx
    exact hx
  rcases e1 with _ | e
  · simp only [mseq, h]
    rw [hb d1, ha2]
  · simp only [mseq, h]
    exact ha2

theorem keepsLedger_mskip : keepsLedger mskip := fun _ => rfl

theorem keepsLedger_addIndex (n : String) (d : MigDb) :
    (addIndex n d).schemaMigrations = d.schemaMigrations := by
  rw [addIndex]
  split <;> rfl

theorem keepsLedger_foldl_addIndex (names : List String) (d : MigDb) :
    (names.foldl (fun d n => addIndex n d) d).schemaMigrations = d.schemaMigrations := by
  induction names generalizing d with
  | nil => rfl
  | cons n ns ih =>
    simp only [List.foldl_cons]
    rw [ih, keepsLedger_addIndex]

theorem keepsLedger_seqAll (l : List MigStep) (h : ∀ f ∈ l, keepsLedger f) :
    keepsLedger (seqAll l) := by
  rw [seqAll]
  suffices haux : ∀ acc, keepsLedger acc → keepsLedger (l.foldl mseq acc) by
    exact haux mskip keepsLedger_mskip
  induction l with
  | nil => exact fun acc hacc => hacc
  | cons f fs ih =>
    intro acc hacc
    simp only [List.foldl_cons]
    exact ih (fun g hg => h g (List.mem_cons_of_mem _ hg))
      (mseq acc f) (keepsLedger_mseq hacc (h f (List.mem_cons_self _ _)))

theorem keepsLedger_alterAddColumn (c : String) : keepsLedger (alterAddColumn c) := by
  intro d
  rw [alterAddColumn]
  rcases d.flightTable with _ | cols
  · rfl
  · simp only []
    split <;> rfl

theorem keepsLedger_migration_v2 : keepsLedger migration_v2 := by
  refine keepsLedger_mseq (fun d => rfl) (keepsLedger_mseq ?_ ?_)
  · intro d
    rw [execCreateAirportIndexes]
    exact keepsLedger_foldl_addIndex _ d
  · intro d
    rw [migrationV2Flight]
    rcases hft : d.flightTable with _ | cols
    · simp only [addOps]
      refine (keepsLedger_mseq ?_ ?_) d
      · intro x
        rw [execCreateFlightEntriesTable]
        rcases x.flightTable with _ | _ <;> rfl
      · intro x
        rw [execCreateFlightIndexesFresh]
        exact keepsLedger_foldl_addIndex _ x
    · simp only [addOps]
      refine (keepsLedger_mseq ?_ ?_) d
      · exact keepsLedger_seqAll _ fun f hf => by
          obtain ⟨c, _, rfl⟩ := List.mem_map.mp hf
          exact keepsLedger_alterAddColumn c
      · intro x
        rw [execCreateFlightIndexesNew]
        exact keepsLedger_foldl_addIndex _ x

theorem mseq_success (a b : MigStep) (d : MigDb) (h : (mseq a b d).err = none) :
    (a d).err = none ∧ (b (a d).db).err = none ∧
      (mseq a b d).db = (b (a d).db).db := by
  rcases ha : a d with ⟨d1, e1, n1⟩
  rcases e1 with _ | e
  · simp only [mseq, ha] at h ⊢
    exact ⟨trivial, h, trivial⟩
  · simp only [mseq, ha] at h
    exact absurd h (Option.some_ne_none e)

theorem mseq_fail (a b : MigStep) (d : MigDb) (h : (a d).err ≠ none) :
    mseq a b d = a d := by
  rcases ha : a d with ⟨d1, e1, n1⟩
  rcases e1 with _ | e
  · rw [ha] at h
    exact absurd rfl h
  · simp only [mseq, ha]

theorem withTransaction_success (f : MigStep) (d : MigDb)
    (h : (f d).err = none) :
    withTransaction f d = { db := (f d).db, err := none, ops := (f d).ops } := by
  rcases hf : f d with ⟨d1, e1, n1⟩
  rcases e1 with _ | e
  · simp only [withTransaction, hf]
  · rw [hf] at h
    cases h

theorem withTransaction_fail (f : MigStep) (d : MigDb)
    (h : (f d).err ≠ none) :
    (withTransaction f d).db = d ∧ (withTransaction f d).err ≠ none := by
  rcases hf : f d with ⟨d1, e1, n1⟩
  rcases e1 with _ | e
  · rw [hf] at h
    exact absurd rfl h
  · simp only [withTransaction, hf]
    exact ⟨trivial, Option.some_ne_none _⟩

theorem insertLedger_success (v : Int) (iso desc : String) (d : MigDb)
    (h : (insertLedger v iso desc d).err = none) :
    ∃ rows, d.schemaMigrations = some rows ∧
      (rows.any fun r => decide (r.version = v)) = false ∧
      (insertLedger v iso desc d).db.schemaMigrations =
        some (rows ++ [⟨v, iso, desc⟩]) := by
  rcases hd : d.schemaMigrations with _ | rows
  · simp only [insertLedger, hd] at h
    exact absurd h (Option.some_ne_none _)
  · by_cases hany : (rows.any fun r => decide (r.version = v)) = true
    · simp only [insertLedger, hd, if_pos hany] at h
      exact absurd h (Option.some_ne_none _)
    · rw [Bool.not_eq_true] at hany
      exact ⟨rows, rfl, hany, by simp [insertLedger, hd, hany]⟩

theorem createSchemaMigrationsTable_err (d : MigDb) :
    (createSchemaMigrationsTable d).err = none := by
  rw [createSchemaMigrationsTable]
  rcases d.schemaMigrations with _ | _ <;> rfl

theorem createSchemaMigrationsTable_shape (d : MigDb) :
    ∃ d1, createSchemaMigrationsTable d = { db := d1, err := none, ops := 1 } := by
  rcases hd : d.schemaMigrations with _ | rows
  · exact ⟨{ d with schemaMigrations := some [] }, by simp [createSchemaMigrationsTable, hd]⟩
  · exact ⟨d, by simp [createSchemaMigrationsTable, hd]⟩

theorem withTransaction_err (f : MigStep) (d : MigDb) :
    (withTransaction f d).err = (f d).err := by
  rcases hf : f d with ⟨d1, e1, n1⟩
  rcases e1 with _ | e <;> simp [withTransaction, hf]

theorem addOps_db (n : Nat) (o : StepOut) : (addOps n o).db = o.db := rfl

theorem addOps_err (n : Nat) (o : StepOut) : (addOps n o).err = o.err := rfl

/-- The store runMigrations migrates against: the original one, with the
ledger table freshly created when starting from version 0. -/
def dbPre (d : MigDb) : MigDb :=
  if (getCurrentSchemaVersion d).1 = 0 then (createSchemaMigrationsTable d).db else d

theorem runMigrations_below (iso : String) (d : MigDb)
    (hcv : (getCurrentSchemaVersion d).1 < 2) :
    (runMigrations (getCurrentSchemaVersion d).1 iso d).db
      = (runMigration 2 "Extended schema with airports" migration_v2 iso (dbPre d)).db ∧
    (runMigrations (getCurrentSchemaVersion d).1 iso d).err
      = (runMigration 2 "Extended schema with airports" migration_v2 iso (dbPre d)).err := by
  by_cases h0 : (getCurrentSchemaVersion d).1 = 0
  · obtain ⟨d1, hcs⟩ := createSchemaMigrationsTable_shape d
    constructor <;>
      simp [runMigrations, dbPre, h0, hcs, hcv, addOps]
  · constructor <;>
      simp [runMigrations, dbPre, h0, hcv, addOps]

theorem runMigration_fail (v : Int) (desc iso : String) (f : MigStep) (d : MigDb)
    (h : (f d).err ≠ none) :
    (runMigration v desc f iso d).db = d ∧ (runMigration v desc f iso d).err ≠ none := by
  rw [runMigration]
  have hbody : (mseq f (insertLedger v iso desc) d).err ≠ none := by
    rw [mseq_fail f _ d h]
    exact h
  exact withTransaction_fail _ d hbody

/-- The ledger of the store has no row for the given version. -/
def ledgerHasNoRow (d : MigDb) (v : Int) : Prop :=
  ∀ rows, d.schemaMigrations = some rows → ∀ r ∈ rows, r.version ≠ v

/-- The versions recorded in the ledger are pairwise distinct (at most
one row per version, as the primary key enforces). -/
def ledgerVersionsNodup (d : MigDb) : Prop :=
  ∀ rows, d.schemaMigrations = some rows → (rows.map (·.version)).Nodup

theorem any_version_eq_false {rows : List LedgerRow} {v : Int}
    (h : (rows.any fun r => decide (r.version = v)) = false) :
    ∀ r ∈ rows, r.version ≠ v := by
  intro r hr hv
  have : (rows.any fun r => decide (r.version = v)) = true :=
    List.any_eq_true.mpr ⟨r, hr, by rw [hv]; exact decide_eq_true rfl⟩
  rw [h] at this
  cases this

theorem dbPre_ledger (d : MigDb) :
    (d.schemaMigrations = none ∧ (dbPre d).schemaMigrations = some []) ∨
      (dbPre d).schemaMigrations = d.schemaMigrations := by
  rcases hd : d.schemaMigrations with _ | rows
  · refine Or.inl ⟨rfl, ?_⟩
    have h0 : (getCurrentSchemaVersion d).1 = 0 := by
      simp [getCurrentSchemaVersion, hd]
    rw [dbPre, if_pos h0]
    simp [createSchemaMigrationsTable, hd]
  · refine Or.inr ?_
    rw [dbPre]
    split
    · simp [createSchemaMigrationsTable, hd]
    · simp [hd]

theorem dbPre_no_v2 (d : MigDb) (hcv : (getCurrentSchemaVersion d).1 < 2) :
    ledgerHasNoRow (dbPre d) 2 := by
  intro rows hrows r hr
  rcases dbPre_ledger d with ⟨_, hpre⟩ | hpre
  · rw [hpre] at hrows
    injection hrows with hrows
    rw [← hrows] at hr
    cases hr
  · rw [hpre] at hrows
    have hmax := mem_le_maxVersion rows r hr
    have hcv2 : maxVersion rows < 2 := by
      rw [getCurrentSchemaVersion, hrows] at hcv
      exact hcv
    intro hv
    rw [hv] at hmax
    omega

theorem session_hit (env : MigEnv) (t : Int) (iso : String)
    (h : env.sessionVersion = some TARGET_SCHEMA_VERSION) :
    checkAndRunMigrations env t iso = { env := env, ok := true, probed := false, dbOps := 0 } := by
  simp [checkAndRunMigrations, h]

theorem throttle_skip (env : MigEnv) (t : Int) (iso : String)
    (h1 : ¬(env.sessionVersion = some TARGET_SCHEMA_VERSION))
    (h2 : shouldSkipMigrationCheck env.lastCheck t = true) :
    checkAndRunMigrations env t iso =
      { env := { env with sessionVersion := some TARGET_SCHEMA_VERSION }
        ok := true, probed := false, dbOps := 0 } := by
  simp [checkAndRunMigrations, h1, h2]

/-- C6: every migration step runs inside its own transaction together
with the append of its ledger row: a failing step leaves the store
exactly as it was and surfaces the error (first part, for any step and
any store), and in the full pipeline a failing v2 step makes the whole
checkAndRunMigrations call fail with the store rolled back to the
pre-transaction state, whose ledger has no row for version 2 (second
part). -/
theorem claim_C6_migration_step_atomic :
    (∀ (f : MigStep) (d : MigDb) (v : Int) (desc iso : String),
      (f d).err ≠ none →
      (runMigration v desc f iso d).db = d ∧ (runMigration v desc f iso d).err ≠ none) ∧
    (∀ (env : MigEnv) (t : Int) (iso : String),
      ¬(env.sessionVersion = some TARGET_SCHEMA_VERSION) →
      shouldSkipMigrationCheck env.lastCheck t = false →
      (getCurrentSchemaVersion env.db).1 < TARGET_SCHEMA_VERSION →
      (migration_v2 (dbPre env.db)).err ≠ none →
      (checkAndRunMigrations env t iso).ok = false ∧
      (checkAndRunMigrations env t iso).env.db = dbPre env.db ∧
      ledgerHasNoRow (checkAndRunMigrations env t iso).env.db 2 ∧
      (checkAndRunMigrations env t iso).env.sessionVersion = env.sessionVersion ∧
      (checkAndRunMigrations env t iso).env.lastCheck = env.lastCheck) := by
  constructor
  · intro f d v desc iso h
    exact runMigration_fail v desc iso f d h
  · intro env t iso h1 h2 hcv hfail
    have hcv2 : (getCurrentSchemaVersion env.db).1 < 2 := hcv
    have hrb := runMigrations_below iso env.db hcv2
    have hrun := runMigration_fail 2 "Extended schema with airports" iso migration_v2
      (dbPre env.db) hfail
    rcases hrm : runMigrations (getCurrentSchemaVersion env.db).1 iso env.db
      with ⟨d1, e1, n1⟩
    have hd1 : d1 = dbPre env.db := by
      have h' := hrb.1
      rw [hrm] at h'
      have h'' : d1 = (runMigration 2 "Extended schema with airports" migration_v2 iso
        (dbPre env.db)).db := h'
      rw [h'', hrun.1]
    rcases e1 with _ | e
    · exfalso
      have := hrb.2
      rw [hrm] at this
      exact hrun.2 this.symm
    · have hred : checkAndRunMigrations env t iso =
          { env := { env with db := d1 }, ok := false, probed := true,
            dbOps := (getCurrentSchemaVersion env.db).2 + n1 } := by
        simp [checkAndRunMigrations, h1, h2, hcv, hrm]
      rw [hred, hd1]
      exact ⟨rfl, rfl, dbPre_no_v2 env.db hcv2, rfl, rfl⟩

/-- A store on which migration v2 fails: the flight_entries table
already carries the first column the step tries to add. -/
def c6db : MigDb :=
  { schemaMigrations := none, airportsTable := false, indexes := []
    flightTable := some ["id", "departure_airport_id"] }

/-- Manager state around that store. -/
def c6env : MigEnv := { sessionVersion := none, lastCheck := none, db := c6db }

theorem claim_C6_migration_step_atomic_witness :
    (runMigration 2 "Extended schema with airports"
        (fun d => { db := d, err := some "boom", ops := 1 }) "iso" c6db).db = c6db ∧
    (checkAndRunMigrations c6env 1000 "iso").ok = false ∧
    (checkAndRunMigrations c6env 1000 "iso").env.db = dbPre c6db := by
  have h1 := claim_C6_migration_step_atomic.1
    (fun d => { db := d, err := some "boom", ops := 1 }) c6db 2
    "Extended schema with airports" "iso" (by simp)
  have h2 := claim_C6_migration_step_atomic.2 c6env 1000 "iso" (by decide) rfl
    (by decide) (by decide)
  exact ⟨h1.1, h2.1, h2.2.1⟩

theorem ok_session (env : MigEnv) (t : Int) (iso : String)
    (h : (checkAndRunMigrations env t iso).ok = true) :
    (checkAndRunMigrations env t iso).env.sessionVersion = some TARGET_SCHEMA_VERSION := by
  by_cases h1 : env.sessionVersion = some TARGET_SCHEMA_VERSION
  · rw [session_hit env t iso h1]
    exact h1
  · by_cases h2 : shouldSkipMigrationCheck env.lastCheck t = true
    · rw [throttle_skip env t iso h1 h2]
    · by_cases hcv : (getCurrentSchemaVersion env.db).1 < TARGET_SCHEMA_VERSION
      · rcases hrm : runMigrations (getCurrentSchemaVersion env.db).1 iso env.db
          with ⟨d1, e1, n1⟩
        rcases e1 with _ | e
        · simp [checkAndRunMigrations, h1, h2, hcv, hrm]
        · exfalso
          have hko : (checkAndRunMigrations env t iso).ok = false := by
            simp [checkAndRunMigrations, h1, h2, hcv, hrm]
          rw [hko] at h
          cases h
      · simp [checkAndRunMigrations, h1, h2, hcv]

theorem nodup_preserved (env : MigEnv) (t : Int) (iso : String)
    (hnd : ledgerVersionsNodup env.db)
    (hok : (checkAndRunMigrations env t iso).ok = true) :
    ledgerVersionsNodup (checkAndRunMigrations env t iso).env.db := by
  by_cases h1 : env.sessionVersion = some TARGET_SCHEMA_VERSION
  · rw [session_hit env t iso h1]
    exact hnd
  · by_cases h2 : shouldSkipMigrationCheck env.lastCheck t = true
    · rw [throttle_skip env t iso h1 h2]
      exact hnd
    · by_cases hcv : (getCurrentSchemaVersion env.db).1 < TARGET_SCHEMA_VERSION
      · rcases hrm : runMigrations (getCurrentSchemaVersion env.db).1 iso env.db
          with ⟨d1, e1, n1⟩
        rcases e1 with _ | e
        · have hfinal : (checkAndRunMigrations env t iso).env.db = d1 := by
            simp [checkAndRunMigrations, h1, h2, hcv, hrm]
          rw [hfinal]
          have hrb := runMigrations_below iso env.db hcv
          have herr : (runMigration 2 "Extended schema with airports" migration_v2 iso
              (dbPre env.db)).err = none := by
            have h' := hrb.2
            rw [hrm] at h'
            exact h'.symm
          have hd1 : d1 = (runMigration 2 "Extended schema with airports" migration_v2 iso
              (dbPre env.db)).db := by
            have h' := hrb.1
            rw [hrm] at h'
            exact h'
          have hbody : (mseq migration_v2
              (insertLedger 2 iso "Extended schema with airports") (dbPre env.db)).err
              = none := by
            rw [runMigration, withTransaction_err] at herr
            exact herr
          obtain ⟨hm2, hins, hdbeq⟩ := mseq_success _ _ _ hbody
          obtain ⟨rows, hrows, hany, hnew⟩ :=
            insertLedger_success 2 iso "Extended schema with airports" _ hins
          have hd1db : d1.schemaMigrations =
              some (rows ++ [⟨2, iso, "Extended schema with airports"⟩]) := by
            rw [hd1, runMigration, withTransaction_success _ _ hbody]
            show (mseq migration_v2 (insertLedger 2 iso "Extended schema with airports")
              (dbPre env.db)).db.schemaMigrations = _
            rw [hdbeq]
            exact hnew
          have hrows_pre : (dbPre env.db).schemaMigrations = some rows := by
            rw [← keepsLedger_migration_v2 (dbPre env.db)]
            exact hrows
          have hnd_rows : (rows.map (·.version)).Nodup := by
            rcases dbPre_ledger env.db with ⟨_, hpre⟩ | hpre
            · rw [hpre] at hrows_pre
              injection hrows_pre with hpre2
              rw [← hpre2]
              exact List.nodup_nil
            · rw [hpre] at hrows_pre
              exact hnd rows hrows_pre
          have hno2 : ∀ r ∈ rows, r.version ≠ 2 := any_version_eq_false hany
          intro rowsF hF
          rw [hd1db] at hF
          injection hF with hF
          rw [← hF, List.map_append]
          refine List.Nodup.append hnd_rows (List.nodup_singleton 2) ?_
          intro a ha1 ha2
          obtain ⟨r, hr, rfl⟩ := List.mem_map.mp ha1
          have ha2' : r.version = 2 := by
            have := List.mem_singleton.mp ha2
            exact this
          exact hno2 r hr ha2'
        · exfalso
          have hko : (checkAndRunMigrations env t iso).ok = false := by
            simp [checkAndRunMigrations, h1, h2, hcv, hrm]
          rw [hko] at hok
          cases hok
      · have hfinal : (checkAndRunMigrations env t iso).env.db = env.db := by
          simp [checkAndRunMigrations, h1, h2, hcv]
        rw [hfinal]
        exact hnd

/-- C7: checkAndRunMigrations is idempotent within a session: a second
call after a successful one (no session or throttle reset) hits the
in-memory session flag, performs zero database statements or queries
and changes nothing, and the ledger after the first call still has at
most one row per version. -/
theorem claim_C7_ensureSchema_idempotent :
    ∀ (env : MigEnv) (t1 t2 : Int) (iso1 iso2 : String),
      ledgerVersionsNodup env.db →
      (checkAndRunMigrations env t1 iso1).ok = true →
      (checkAndRunMigrations (checkAndRunMigrations env t1 iso1).env t2 iso2 =
          { env := (checkAndRunMigrations env t1 iso1).env, ok := true, probed := false,
            dbOps := 0 } ∧
        ledgerVersionsNodup (checkAndRunMigrations env t1 iso1).env.db) := by
  intro env t1 t2 iso1 iso2 hnd hok
  exact ⟨session_hit _ t2 iso2 (ok_session env t1 iso1 hok),
    nodup_preserved env t1 iso1 hnd hok⟩

/-- The fresh-install state of the idempotence scenario. -/
def c7env : MigEnv :=
  { sessionVersion := none, lastCheck := none
    db := { schemaMigrations := none, airportsTable := false, indexes := []
            flightTable := none } }

theorem claim_C7_ensureSchema_idempotent_witness :
    checkAndRunMigrations (checkAndRunMigrations c7env 1000 "iso1").env 2000 "iso2" =
      { env := (checkAndRunMigrations c7env 1000 "iso1").env, ok := true, probed := false,
        dbOps := 0 } :=
  (claim_C7_ensureSchema_idempotent c7env 1000 2000 "iso1" "iso2"
    (fun _ h => Option.noConfusion h) (by decide)).1

/-- C8: with the session flag unset and a persisted last-checked
timestamp present, ensureSchema performs no version probe exactly when
the elapsed time is strictly below the 24-hour window, and in that
case it only marks the in-memory flag, touching nothing else. -/
theorem claim_C8_throttle_window :
    ∀ (env : MigEnv) (t now : Int) (iso : String),
      env.sessionVersion = none → env.lastCheck = some t →
      (((checkAndRunMigrations env now iso).probed = false) ↔
        now - t < MIGRATION_CHECK_INTERVAL) ∧
      (now - t < MIGRATION_CHECK_INTERVAL →
        (checkAndRunMigrations env now iso).env.sessionVersion
            = some TARGET_SCHEMA_VERSION ∧
        (checkAndRunMigrations env now iso).env.db = env.db ∧
        (checkAndRunMigrations env now iso).dbOps = 0) := by
  intro env t now iso hs hl
  have h1 : ¬(env.sessionVersion = some TARGET_SCHEMA_VERSION) := by
    rw [hs]
    simp
  by_cases hw : now - t < MIGRATION_CHECK_INTERVAL
  · have h2 : shouldSkipMigrationCheck env.lastCheck now = true := by
      simp [shouldSkipMigrationCheck, hl, hw]
    rw [throttle_skip env now iso h1 h2]
    exact ⟨Iff.intro (fun _ => hw) (fun _ => rfl), fun _ => ⟨rfl, rfl, rfl⟩⟩
  · have h2 : shouldSkipMigrationCheck env.lastCheck now = false := by
      simp [shouldSkipMigrationCheck, hl, hw]
    have hprobe : (checkAndRunMigrations env now iso).probed = true := by
      by_cases hcv : (getCurrentSchemaVersion env.db).1 < TARGET_SCHEMA_VERSION
      · rcases hrm : runMigrations (getCurrentSchemaVersion env.db).1 iso env.db
          with ⟨d1, e1, n1⟩
        rcases e1 with _ | e <;> simp [checkAndRunMigrations, h1, h2, hcv, hrm]
      · simp [checkAndRunMigrations, h1, h2, hcv]
    constructor
    · rw [hprobe]
      simp [hw]
    · intro hcontra
      exact absurd hcontra hw

/-- An up-to-date store for the throttle scenario. -/
def c8env : MigEnv :=
  { sessionVersion := none, lastCheck := some 0
    db := { schemaMigrations := some [⟨2, "t", "migrated"⟩], airportsTable := true
            indexes := [], flightTable := some flightColumnsV2 } }

theorem claim_C8_throttle_window_witness :
    (checkAndRunMigrations c8env 3600000 "iso").probed = false ∧
    (checkAndRunMigrations c8env 90000000 "iso").probed = true := by
  have h1 := claim_C8_throttle_window c8env 0 3600000 "iso" rfl rfl
  have h25 := claim_C8_throttle_window c8env 0 90000000 "iso" rfl rfl
  refine ⟨h1.1.mpr (by decide), ?_⟩
  rcases hp : (checkAndRunMigrations c8env 90000000 "iso").probed with _ | _
  · exact absurd (h25.1.mp hp) (by decide)
  · rfl

end Logbook
